import Mathlib

/-!
# Verification of the openclaw dev-cockpit project registry and aggregation layer

Shallow embedding of `src/gateway/server-methods/projects.ts`, the
brain-context cache (`agents/brain-context-cache.ts`), the brain-context hook
handler, and (modelled from the spec, because the Python aggregation scripts
are not part of the source tree) the session-attribution and usage-aggregation
algorithms of the dev-cockpit skill.

Conventions of the embedding:
* The registry file on disk is modelled at the JSON-document level: a file
  text is either a valid JSON serialization of a `ProjectRegistry` document
  (tracking whether a newline follows the document) or malformed.  This models
  the external `JSON.parse` / `JSON.stringify` collaborators: every text
  either parses to a document or `JSON.parse` throws.
* `Record<string, T>` objects and `Map<string, T>` are modelled as
  association lists `List (String × T)`.
* JS numbers used as token counts are `Nat`, costs are `Rat`, epoch
  milliseconds are `Int`.
* RPC `respond(ok, payload, errorShape(code, msg))` is modelled by
  `RpcOutcome`.
-/

namespace OpenClaw

/-- Error codes of the gateway protocol.  The protocol module itself is not in
the source tree; the taxonomy is the spec's (§7): `InvalidRequest`,
`NotFound`, `Unavailable`.  The handlers in `projects.ts` use
`ErrorCodes.INVALID_REQUEST` and `ErrorCodes.UNAVAILABLE`. -/
inductive ErrorCode where
  | invalidRequest
  | notFound
  | unavailable
deriving DecidableEq

/-- `errorShape(code, message)` from the protocol module: a structured error
with a machine-readable code and a human-readable message. -/
structure ErrorShape where
  code : ErrorCode
  message : String
deriving DecidableEq

/-- Outcome of one RPC handler call: `respond(true, payload)` or
`respond(false, undefined, errorShape(...))`. -/
inductive RpcOutcome (α : Type) where
  | ok (payload : α)
  | err (e : ErrorShape)
deriving DecidableEq

/-- One row of the project registry (`ProjectEntry` in the dashboard types). -/
structure ProjectEntry where
  path : String
  enabled : Bool
  tags : List String
  language : String
  discovered : String
  description : String
  lastCommit : Option String
deriving DecidableEq

/-- The persisted registry document (`ProjectRegistry` in the dashboard
types); `projects` is a JS object keyed by project name, modelled as an
insertion-ordered association list. -/
structure ProjectRegistry where
  version : Int
  scannedAt : String
  scanRoots : List String
  projects : List (String × ProjectEntry)
deriving DecidableEq

/-- Model of the text stored in the registry file.  Every text is either a
valid JSON serialization of a registry document — `trailingNewline` records
whether the serialized document is followed by a newline, as the toggle
handler's `JSON.stringify(registry, null, 2) + "\n"` write produces — or
malformed, in which case `JSON.parse` throws.  This models the external
`JSON.parse`/`JSON.stringify` collaborators at the document level. -/
inductive RegistryFileText where
  | valid (doc : ProjectRegistry) (trailingNewline : Bool)
  | malformed
deriving DecidableEq

/-- `JSON.parse` applied to the registry file text: yields the document for a
valid text, throws (modelled as `Except.error`) for a malformed one. -/
def parseRegistryFile : RegistryFileText → Except String ProjectRegistry
  | .valid doc _ => .ok doc
  | .malformed => .error "SyntaxError: Unexpected token in JSON"

/-- The registry file as seen through `fs.existsSync` / `fs.readFileSync`:
`none` when the file is absent. -/
abbrev RegistryFile := Option RegistryFileText

/-- Success payload of `projects.list`: either the
`{ projects: {}, message: ... }` object produced when no registry file
exists, or the parsed registry document itself. -/
inductive ListPayload where
  | noRegistry (projects : List (String × ProjectEntry)) (message : String)
  | registryDoc (doc : ProjectRegistry)
deriving DecidableEq

/-- Handler `projects.list` from `projects.ts`: missing file → success with an
empty projects map and a hint message; otherwise read and `JSON.parse` the
file, responding with the registry on success and with a structured
`UNAVAILABLE` error when the parse throws. -/
def projectsList (file : RegistryFile) : RpcOutcome ListPayload :=
  match file with
  | none => .ok (.noRegistry [] "No registry found. Run projects.scan first.")
  | some ft =>
    match parseRegistryFile ft with
    | .ok registry => .ok (.registryDoc registry)
    | .error e => .err ⟨.unavailable, e⟩

/-- Success payload of `projects.toggle`: `{ project, enabled }`. -/
structure ToggleOk where
  project : String
  enabled : Bool
deriving DecidableEq

/-- Parameters of `projects.toggle` after the `typeof` guards:
`project` is `some s` when `params.project` is a string (else `null`),
`enabled` is `some b` when `params.enabled` is a boolean (else `null`). -/
structure ToggleParams where
  project : Option String
  enabled : Option Bool
deriving DecidableEq

/-- JS falsiness of the `projectName` local (`null` or the empty string). -/
def jsFalsyName : Option String → Bool
  | none => true
  | some s => s == ""

/-- The in-place mutation `registry.projects[projectName].enabled = enabled`
on the projects object: the entry bound to `name` gets its `enabled` field
replaced, every other binding is untouched. -/
def setProjectEnabled (ps : List (String × ProjectEntry)) (name : String)
    (enabled : Bool) : List (String × ProjectEntry) :=
  ps.map (fun pr => if pr.1 == name then (pr.1, { pr.2 with enabled := enabled }) else pr)

/-- Handler `projects.toggle` from `projects.ts`, as a function of the request
parameters and the registry file state, returning the response and the new
file state.  Mirrors the source: falsy name or missing boolean →
`INVALID_REQUEST`; missing file → `INVALID_REQUEST "No registry found"`;
parse failure → `UNAVAILABLE`; unknown project → `INVALID_REQUEST
"Project not found: <name>"`; otherwise mutate the entry's `enabled` field
and write `JSON.stringify(registry, null, 2) + "\n"` back to the file. -/
def projectsToggle (params : ToggleParams) (file : RegistryFile) :
    RpcOutcome ToggleOk × RegistryFile :=
  if jsFalsyName params.project || params.enabled.isNone then
    (.err ⟨.invalidRequest, "project (string) and enabled (boolean) required"⟩, file)
  else
    let projectName := params.project.getD ""
    let enabled := params.enabled.getD false
    match file with
    | none => (.err ⟨.invalidRequest, "No registry found"⟩, file)
    | some ft =>
      match parseRegistryFile ft with
      | .error e => (.err ⟨.unavailable, e⟩, file)
      | .ok registry =>
        match registry.projects.lookup projectName with
        | none =>
          (.err ⟨.invalidRequest, "Project not found: " ++ projectName⟩, file)
        | some _ =>
          let newRegistry : ProjectRegistry :=
            { registry with projects := setProjectEnabled registry.projects projectName enabled }
          (.ok ⟨projectName, enabled⟩, some (.valid newRegistry true))

/-! ## External process invocation (`runPythonScript` and the script handlers) -/

/-- The options record passed to `execFileAsync` in `runPythonScript`:
`timeout: 30_000` milliseconds and `maxBuffer: 10 * 1024 * 1024` bytes. -/
structure ExecOptions where
  timeoutMs : Nat
  maxBufferBytes : Nat
deriving DecidableEq

/-- The options `runPythonScript` hands to `execFileAsync`. -/
def execFileOptions : ExecOptions := { timeoutMs := 30000, maxBufferBytes := 10 * 1024 * 1024 }

/-- The stdout text of a script invocation, at the `JSON.parse` level: either
a valid serialization of a result document of type `α`, or text on which
`JSON.parse` throws. -/
inductive ScriptOutput (α : Type) where
  | valid (doc : α)
  | malformed
deriving DecidableEq

/-- The external `execFileAsync("python3", [scriptPath, ...args], opts)`
collaborator: given the argument list and the options, it either resolves
with the stdout text or rejects (non-zero exit, spawn failure, output larger
than `maxBuffer`, or the kill on wall-clock timeout), modelled as
`Except.error` carrying the stringified error. -/
def ExecCollab (α : Type) : Type :=
  List String → ExecOptions → Except String (ScriptOutput α)

/-- `runPythonScript(scriptName, args)` from `projects.ts`: throws when the
script file does not exist, invokes `execFileAsync` with a 30-second timeout
and a 10MB `maxBuffer`, and `JSON.parse`s the stdout.  Any rejection or parse
failure propagates as `Except.error` to the calling handler's `catch`. -/
def runPythonScript (α : Type) (scriptName : String) (args : List String)
    (scriptExists : Bool) (exec : ExecCollab α) : Except String α :=
  if scriptExists = false then .error ("Error: Script not found: " ++ scriptName)
  else
    match exec args execFileOptions with
    | .error e => .error e
    | .ok (.valid doc) => .ok doc
    | .ok .malformed => .error "SyntaxError: Unexpected token in JSON"

/-- Parameters of `projects.usage` / `projects.git` after the `typeof`
guards: `days` is `some d` when `params.days` is a number, `project` is
`some p` when `params.project` is a string. -/
structure UsageParams where
  days : Option Int
  project : Option String
deriving DecidableEq

/-- The argument list `projects.usage` builds (lines 64-70 of `projects.ts`):
`["--format","json"]`, then `--days` when given, then `--project` with the
caller-supplied project name appended verbatim — no validation. -/
def usageArgs (params : UsageParams) : List String :=
  (["--format", "json"]
    ++ (match params.days with | some d => ["--days", toString d] | none => []))
    ++ (match params.project with | some p => ["--project", p] | none => [])

/-- Handler `projects.usage`: run `project_usage.py` with `usageArgs`;
respond with the parsed result, or with a structured `UNAVAILABLE` error when
`runPythonScript` throws. -/
def projectsUsage (α : Type) (params : UsageParams) (scriptExists : Bool)
    (exec : ExecCollab α) : RpcOutcome α :=
  match runPythonScript α "project_usage.py" (usageArgs params) scriptExists exec with
  | .ok result => .ok result
  | .error e => .err ⟨.unavailable, e⟩

/-- The argument list `projects.git` builds — same shape as `usageArgs`,
project name appended verbatim. -/
def gitArgs (params : UsageParams) : List String :=
  (["--format", "json"]
    ++ (match params.days with | some d => ["--days", toString d] | none => []))
    ++ (match params.project with | some p => ["--project", p] | none => [])

/-- Handler `projects.git`: run `git_activity.py` with `gitArgs`; failures
become structured `UNAVAILABLE` errors. -/
def projectsGit (α : Type) (params : UsageParams) (scriptExists : Bool)
    (exec : ExecCollab α) : RpcOutcome α :=
  match runPythonScript α "git_activity.py" (gitArgs params) scriptExists exec with
  | .ok result => .ok result
  | .error e => .err ⟨.unavailable, e⟩

/-- Parameters of `projects.scan`: `roots` is `some rs` when `params.roots`
is an array, else `none` (the handler then defaults to `$HOME/dev`). -/
structure ScanParams where
  roots : Option (List String)
deriving DecidableEq

/-- `path.join(HOME, ".openclaw", "cockpit", "projects.json")`. -/
def registryPath (home : String) : String :=
  home ++ "/.openclaw/cockpit/projects.json"

/-- The argument list `projects.scan` builds (lines 84-90 of `projects.ts`):
`["--output", REGISTRY_PATH]` and then `--root r` for every caller-supplied
root, pushed verbatim — no resolution against an allowed base directory. -/
def scanArgs (home : String) (params : ScanParams) : List String :=
  (match params.roots with
    | some rs => rs
    | none => [home ++ "/dev"]).foldl
    (fun args root => args ++ ["--root", root])
    ["--output", registryPath home]

/-- Success payload of `projects.scan`: the re-read registry document when
the registry file exists after the scan, else the script's own result. -/
inductive ScanPayload (α : Type) where
  | registryDoc (doc : ProjectRegistry)
  | scriptResult (result : α)
deriving DecidableEq

/-- Handler `projects.scan`: run `project_scan.py` with `scanArgs`, then
re-read the registry file; any script failure or parse failure of the
re-read file becomes a structured `UNAVAILABLE` error. -/
def projectsScan (α : Type) (home : String) (params : ScanParams)
    (scriptExists : Bool) (exec : ExecCollab α) (fileAfter : RegistryFile) :
    RpcOutcome (ScanPayload α) :=
  match runPythonScript α "project_scan.py" (scanArgs home params) scriptExists exec with
  | .error e => .err ⟨.unavailable, e⟩
  | .ok result =>
    match fileAfter with
    | none => .ok (.scriptResult result)
    | some ft =>
      match parseRegistryFile ft with
      | .ok registry => .ok (.registryDoc registry)
      | .error e => .err ⟨.unavailable, e⟩

/-! ## Session attribution (modelled from the spec)

The attribution rule lives in `project_usage.py`, which is not part of the
source tree (only its markdown documentation is); the definitions below are
modelled from the spec, §4.1. -/

/-- Boolean list-prefix test (JS `String.prototype.startsWith` on the
underlying character sequences). -/
def listIsPrefix : List Char → List Char → Bool
  | [], _ => true
  | _ :: _, [] => false
  | a :: as, b :: bs => a == b && listIsPrefix as bs

/-- `s` starts with `pre`, on characters. -/
def strStartsWith (s pre : String) : Bool :=
  listIsPrefix pre.data s.data

/-- Modelled from the spec: the matching rule of §4.1 for the missing
`project_usage.py` — a project matches if `cwd` equals `project.path` or
`cwd` starts with `project.path` followed by a path separator. -/
def matchesCwd (cwd projPath : String) : Bool :=
  cwd == projPath || strStartsWith cwd (projPath ++ "/")

/-- Modelled from the spec: fold step choosing the candidate with the
strictly longer `path`, keeping the earlier candidate on ties (stable
iteration order, §4.1). -/
def pickLonger (best : Option (String × ProjectEntry)) (cand : String × ProjectEntry) :
    Option (String × ProjectEntry) :=
  match best with
  | none => some cand
  | some b => if cand.2.path.length > b.2.path.length then some cand else some b

/-- Modelled from the spec: `attribute(cwd, registry)` of §4.1 for the
missing `project_usage.py` — among enabled projects whose path
boundary-matches `cwd`, return the name of the one with the longest path;
empty `cwd` or no match yields the sentinel `"_unmatched"`.  (`attribute` is
a Lean keyword, hence the name.) -/
def attributeSession (cwd : String) (registry : ProjectRegistry) : String :=
  if cwd == "" then "_unmatched"
  else
    match (registry.projects.filter
        fun pr => pr.2.enabled && matchesCwd cwd pr.2.path).foldl pickLonger none with
    | none => "_unmatched"
    | some best => best.1

/-! ## Usage aggregation (modelled from the spec)

The aggregation lives in `project_usage.py`, absent from the source tree;
the definitions below are modelled from the spec, §4.2, restricted to the
fields the verified properties are about (token counts, cost, session
counts; the per-model breakdown and active-time estimate are omitted). -/

/-- One session event: timestamp (epoch milliseconds), model id, token
counts and the precomputed cost recorded at generation time. -/
structure UsageEvent where
  timestamp : Int
  model : String
  inputTokens : Nat
  outputTokens : Nat
  costUSD : Rat
deriving DecidableEq

/-- One session record: the header's working directory and the timestamped
events. -/
structure SessionRecord where
  cwd : String
  events : List UsageEvent
deriving DecidableEq

/-- Milliseconds per day (`days*24h` windows, §4.2). -/
def msPerDay : Int := 86400000

/-- Modelled from the spec: the in-window events of a session — all of them
when `days` is `null`, otherwise those with timestamp within the trailing
`days*24h` window relative to `now` (evaluated once per call). -/
def eventsInWindow (days : Option Nat) (now : Int) (events : List UsageEvent) :
    List UsageEvent :=
  match days with
  | none => events
  | some d => events.filter fun e => now - (d : Int) * msPerDay ≤ e.timestamp

/-- Sum of the input-token counts of a list of events. -/
def sumInputTokens (evs : List UsageEvent) : Nat :=
  (evs.map fun e => e.inputTokens).sum

/-- Sum of the output-token counts of a list of events. -/
def sumOutputTokens (evs : List UsageEvent) : Nat :=
  (evs.map fun e => e.outputTokens).sum

/-- Sum of the precomputed event costs of a list of events. -/
def sumCost (evs : List UsageEvent) : Rat :=
  (evs.map fun e => e.costUSD).sum

/-- Per-project usage entry (the claim-relevant fields of `UsageEntry`). -/
structure UsageEntryM where
  sessions : Nat
  inputTokens : Nat
  outputTokens : Nat
  totalTokens : Nat
  estimatedCostUSD : Rat
deriving DecidableEq

/-- The all-zero usage entry a project starts from. -/
def emptyUsageEntry : UsageEntryM := ⟨0, 0, 0, 0, 0⟩

/-- Modelled from the spec: accumulate one included session's in-window
sums into a project's entry — session count up by one, token fields by the
event sums, `totalTokens` by input+output, cost by the precomputed cost sum
(§4.2). -/
def addToEntry (en : UsageEntryM) (inT outT : Nat) (cost : Rat) : UsageEntryM :=
  { sessions := en.sessions + 1,
    inputTokens := en.inputTokens + inT,
    outputTokens := en.outputTokens + outT,
    totalTokens := en.totalTokens + (inT + outT),
    estimatedCostUSD := en.estimatedCostUSD + cost }

/-- Accumulate a session's sums into the per-project map under key `p`,
creating the entry on first sight. -/
def updateUsageMap : List (String × UsageEntryM) → String → Nat → Nat → Rat →
    List (String × UsageEntryM)
  | [], p, inT, outT, cost => [(p, addToEntry emptyUsageEntry inT outT cost)]
  | (q, en) :: rest, p, inT, outT, cost =>
    if q == p then (q, addToEntry en inT outT cost) :: rest
    else (q, en) :: updateUsageMap rest p inT outT cost

/-- The project filter as a post-step predicate on the attributed name. -/
def includedInFilter (filter : Option String) (p : String) : Bool :=
  match filter with
  | none => true
  | some f => p == f

/-- Modelled from the spec: fold step of the per-project pass — a session
with no in-window events is skipped; otherwise it is attributed, and when it
passes the project filter its in-window sums are accumulated under its
project's key (§4.2). -/
def accumulateSession (days : Option Nat) (filter : Option String) (now : Int)
    (reg : ProjectRegistry) (m : List (String × UsageEntryM)) (s : SessionRecord) :
    List (String × UsageEntryM) :=
  let evs := eventsInWindow days now s.events
  if evs.isEmpty then m
  else
    let p := attributeSession s.cwd reg
    if includedInFilter filter p then
      updateUsageMap m p (sumInputTokens evs) (sumOutputTokens evs) (sumCost evs)
    else m

/-- The per-project map of one aggregation call. -/
def usageProjects (days : Option Nat) (filter : Option String) (now : Int)
    (reg : ProjectRegistry) (sessions : List SessionRecord) :
    List (String × UsageEntryM) :=
  sessions.foldl (accumulateSession days filter now reg) []

/-- The grand totals of `ProjectUsageResult`. -/
structure UsageTotalsM where
  sessions : Nat
  totalTokens : Nat
  estimatedCostUSD : Rat
deriving DecidableEq

/-- Modelled from the spec: fold step of the independent grand-totals pass —
the same inclusion conditions as the per-project pass, accumulating into the
single totals record (§4.2: totals computed independently of the per-project
entries). -/
def accumulateTotals (days : Option Nat) (filter : Option String) (now : Int)
    (reg : ProjectRegistry) (t : UsageTotalsM) (s : SessionRecord) : UsageTotalsM :=
  let evs := eventsInWindow days now s.events
  if evs.isEmpty then t
  else
    let p := attributeSession s.cwd reg
    if includedInFilter filter p then
      { sessions := t.sessions + 1,
        totalTokens := t.totalTokens + (sumInputTokens evs + sumOutputTokens evs),
        estimatedCostUSD := t.estimatedCostUSD + sumCost evs }
    else t

/-- The grand totals of one aggregation call. -/
def usageTotals (days : Option Nat) (filter : Option String) (now : Int)
    (reg : ProjectRegistry) (sessions : List SessionRecord) : UsageTotalsM :=
  sessions.foldl (accumulateTotals days filter now reg) ⟨0, 0, 0⟩

/-- The claim-relevant fields of `ProjectUsageResult`. -/
structure ProjectUsageResultM where
  days : Option Nat
  projectFilter : Option String
  totalProjects : Nat
  projects : List (String × UsageEntryM)
  totals : UsageTotalsM
deriving DecidableEq

/-- Modelled from the spec: `aggregate(days, projectFilter, sessions,
registry)` of §4.2 for the missing `project_usage.py` — per-project entries
from the session pass, grand totals from the independent totals pass. -/
def aggregate (days : Option Nat) (filter : Option String) (now : Int)
    (sessions : List SessionRecord) (reg : ProjectRegistry) : ProjectUsageResultM :=
  let m := usageProjects days filter now reg sessions
  { days := days,
    projectFilter := filter,
    totalProjects := m.length,
    projects := m,
    totals := usageTotals days filter now reg sessions }

/-! ## Brain-context cache (`agents/brain-context-cache.ts`) -/

/-- One retrieved entity (`{ name, type, summary? }`; `type` is a Lean
keyword, hence `entityType`). -/
structure BrainEntity where
  name : String
  entityType : String
  summary : Option String
deriving DecidableEq

/-- `BrainContextPayload` from `brain-context-cache.ts`. -/
structure BrainContextPayload where
  contextBlock : String
  memoriesUsed : Nat
  retrievalMs : Nat
  identity : Option String
  entities : Option (List BrainEntity)
deriving DecidableEq

/-- One cache slot: the payload and its absolute expiry time. -/
structure CacheEntry where
  payload : BrainContextPayload
  expiresAt : Int
deriving DecidableEq

/-- `DEFAULT_TTL_MS = 30_000`. -/
def DEFAULT_TTL_MS : Nat := 30000

/-- The module-level `Map<string, CacheEntry>`, modelled as an association
list; `Map.set`'s replace-on-existing-key is modelled by dropping any
binding of the key before consing the new one (extensionally the same store
under `Map.get`/`Map.delete`). -/
abbrev BrainCache := List (String × CacheEntry)

/-- `setBrainContext(sessionKey, context)`: bind the key to the payload with
expiry `Date.now() + DEFAULT_TTL_MS` (`now` is the call's `Date.now()`). -/
def setBrainContext (sessionKey : String) (context : BrainContextPayload)
    (now : Int) (cache : BrainCache) : BrainCache :=
  (sessionKey, ⟨context, now + DEFAULT_TTL_MS⟩) ::
    cache.filter fun pr => pr.1 != sessionKey

/-- `getBrainContext(sessionKey)`: absent key → `undefined`; expired entry
(`Date.now() > entry.expiresAt`) → delete it and return `undefined`; live
entry → its payload.  Returns the result and the cache after the call. -/
def getBrainContext (sessionKey : String) (now : Int) (cache : BrainCache) :
    Option BrainContextPayload × BrainCache :=
  match cache.lookup sessionKey with
  | none => (none, cache)
  | some entry =>
    if now > entry.expiresAt then (none, cache.filter fun pr => pr.1 != sessionKey)
    else (some entry.payload, cache)

/-- `clearBrainContext(sessionKey)`. -/
def clearBrainContext (sessionKey : String) (cache : BrainCache) : BrainCache :=
  cache.filter fun pr => pr.1 != sessionKey

/-! ## Context truncation (brain-context hook handler) -/

/-- `truncateContextBlock(block, maxChars)` from the brain-context hook
handler: return `block` unchanged when it fits, else the first `maxChars`
characters (`block.slice(0, maxChars)`) followed by `"\n[...truncated]"`. -/
def truncateContextBlock (block : String) (maxChars : Nat) : String :=
  if block.length ≤ maxChars then block
  else String.mk (block.data.take maxChars) ++ "\n[...truncated]"

/-! ## Concrete fixtures used by witnesses and counterexamples -/

/-- A registry entry for the witness registry. -/
def entryOpenclaw : ProjectEntry :=
  ⟨"/home/u/dev/openclaw", true, ["ts"], "typescript", "2026-01-01", "main repo", none⟩

/-- A second entry, used to check the frame condition on untouched rows. -/
def entryOther : ProjectEntry :=
  ⟨"/home/u/dev/other", false, [], "python", "2026-01-02", "", some "abc123"⟩

/-- A concrete two-project registry. -/
def regFixture : ProjectRegistry :=
  ⟨1, "2026-02-01T00:00:00Z", ["/home/u/dev"], [("openclaw", entryOpenclaw), ("other", entryOther)]⟩

/-- Registry with nested project paths `/a` and `/a/b`, both enabled. -/
def regNested : ProjectRegistry :=
  ⟨1, "2026-02-01T00:00:00Z", ["/a"],
    [("a", ⟨"/a", true, [], "go", "2026-01-01", "", none⟩),
     ("ab", ⟨"/a/b", true, [], "rust", "2026-01-01", "", none⟩)]⟩

/-- A concrete brain-context payload. -/
def payloadFixture : BrainContextPayload :=
  ⟨"remembered context", 3, 120, some "assistant identity", none⟩

/-! ## Helper lemmas -/

/-- After the in-place `enabled` mutation, looking up the mutated name
yields the old entry with only `enabled` replaced. -/
theorem lookup_setProjectEnabled_self (ps : List (String × ProjectEntry)) (name : String)
    (b : Bool) (e : ProjectEntry) (h : ps.lookup name = some e) :
    (setProjectEnabled ps name b).lookup name = some { e with enabled := b } := by
  induction ps with
  | nil => simp [List.lookup] at h
  | cons hd tl ih =>
    obtain ⟨k, v⟩ := hd
    cases hkv : (k == name) with
    | true =>
      have hk : k = name := by exact eq_of_beq hkv
      have hnk : (name == k) = true := by rw [hk]; simp
      rw [List.lookup] at h
      rw [hnk] at h
      simp only [setProjectEnabled, List.map_cons]
      rw [if_pos hkv, List.lookup, hnk]
      simp at h
      rw [h]
    | false =>
      have hnk : (name == k) = false := by
        cases hnk2 : (name == k) with
        | true => exact absurd (by rw [eq_of_beq hnk2]; simp) (by simp [hkv] : ¬ (k == name) = true)
        | false => rfl
      rw [List.lookup, hnk] at h
      simp only [setProjectEnabled, List.map_cons] at ih ⊢
      rw [if_neg (by simp [hkv])]
      rw [List.lookup, hnk]
      exact ih h

/-- The `enabled` mutation leaves every other binding untouched. -/
theorem lookup_setProjectEnabled_ne (ps : List (String × ProjectEntry)) (name n' : String)
    (b : Bool) (h : n' ≠ name) :
    (setProjectEnabled ps name b).lookup n' = ps.lookup n' := by
  induction ps with
  | nil => rfl
  | cons hd tl ih =>
    obtain ⟨k, v⟩ := hd
    simp only [setProjectEnabled, List.map_cons] at ih ⊢
    cases hkv : (k == name) with
    | true =>
      have hk : k = name := eq_of_beq hkv
      have hn : (n' == k) = false := by
        cases hn2 : (n' == k) with
        | true => exact absurd (eq_of_beq hn2 ▸ hk) h
        | false => rfl
      rw [if_pos rfl, List.lookup, List.lookup, hn]
      simp only [hn]
      exact ih
    | false =>
      rw [if_neg (by simp), List.lookup, List.lookup]
      cases hn : (n' == k) with
      | true => rfl
      | false => exact ih

/-- The `enabled` mutation preserves the set and order of project names. -/
theorem keys_setProjectEnabled (ps : List (String × ProjectEntry)) (name : String) (b : Bool) :
    (setProjectEnabled ps name b).map Prod.fst = ps.map Prod.fst := by
  induction ps with
  | nil => rfl
  | cons hd tl ih =>
    obtain ⟨k, v⟩ := hd
    simp only [setProjectEnabled, List.map_cons] at ih ⊢
    cases hkv : (k == name) with
    | true => rw [if_pos rfl]; simpa using ih
    | false => rw [if_neg (by simp)]; simpa using ih

/-! ## Claim theorems -/

/-- C1 (counterexample): on a concrete registry without project `ghost`,
`projects.toggle` responds with a structured error whose code is
`INVALID_REQUEST`, and `InvalidRequest` is not `NotFound` — so the claim
that the failure carries code `NotFound` is false on the code. -/
theorem projectsToggle_absent_not_notFound :
    (projectsToggle ⟨some "ghost", some true⟩ (some (.valid regFixture true))).1 =
      .err ⟨.invalidRequest, "Project not found: ghost"⟩ ∧
    ErrorCode.invalidRequest ≠ ErrorCode.notFound := by
  constructor
  · decide
  · decide

/-- C1 (amended): for every toggle request whose project name is absent from
the registry, the operation fails with a structured error — code
`InvalidRequest`, message `"Project not found: <name>"` — not a success and
not an uncaught exception. -/
theorem projectsToggle_absent_invalidRequest (reg : ProjectRegistry) (nl : Bool)
    (name : String) (b : Bool) (hname : name ≠ "")
    (hmissing : reg.projects.lookup name = none) :
    (projectsToggle ⟨some name, some b⟩ (some (.valid reg nl))).1 =
      .err ⟨.invalidRequest, "Project not found: " ++ name⟩ := by
  have hfalsy : jsFalsyName (some name) = false := by
    simp [jsFalsyName, hname]
  simp [projectsToggle, hfalsy, parseRegistryFile, hmissing]

/-- C1 (witness): the amended theorem applied to a concrete request for the
absent project `ghost`. -/
theorem projectsToggle_absent_invalidRequest_witness :
    "ghost" ≠ "" ∧ regFixture.projects.lookup "ghost" = none ∧
    (projectsToggle ⟨some "ghost", some true⟩ (some (.valid regFixture true))).1 =
      .err ⟨.invalidRequest, "Project not found: ghost"⟩ :=
  ⟨by decide, by decide,
    projectsToggle_absent_invalidRequest regFixture true "ghost" true (by decide) (by decide)⟩

/-- C5: when `projects.toggle` fails because the named project is absent
from the registry, the registry file is left exactly as it was — a re-read
yields the same content. -/
theorem projectsToggle_absent_file_unchanged (reg : ProjectRegistry) (nl : Bool)
    (name : String) (b : Bool) (hname : name ≠ "")
    (hmissing : reg.projects.lookup name = none) :
    (projectsToggle ⟨some name, some b⟩ (some (.valid reg nl))).2 =
      some (.valid reg nl) := by
  have hfalsy : jsFalsyName (some name) = false := by
    simp [jsFalsyName, hname]
  simp [projectsToggle, hfalsy, parseRegistryFile, hmissing]

/-- C5 (witness): the theorem applied to a concrete request for the absent
project `ghost`. -/
theorem projectsToggle_absent_file_unchanged_witness :
    "ghost" ≠ "" ∧ regFixture.projects.lookup "ghost" = none ∧
    (projectsToggle ⟨some "ghost", some false⟩ (some (.valid regFixture true))).2 =
      some (.valid regFixture true) :=
  ⟨by decide, by decide,
    projectsToggle_absent_file_unchanged regFixture true "ghost" false (by decide) (by decide)⟩

/-- C4: a successful `projects.toggle(name, enabled)` responds
`{ project, enabled }` and persists, as a JSON document followed by a
trailing newline, the previously persisted registry with only
`projects[name].enabled` replaced: the mutated entry keeps every other
field, every other project's binding is untouched, the key set and order are
preserved, and `version`/`scannedAt`/`scanRoots` are carried over unchanged
(visible in the written document `{ reg with projects := ... }`). -/
theorem projectsToggle_success_frame (reg : ProjectRegistry) (nl : Bool)
    (name : String) (b : Bool) (e : ProjectEntry) (hname : name ≠ "")
    (hfound : reg.projects.lookup name = some e) :
    (projectsToggle ⟨some name, some b⟩ (some (.valid reg nl))).1 = .ok ⟨name, b⟩ ∧
    (projectsToggle ⟨some name, some b⟩ (some (.valid reg nl))).2 =
      some (.valid { reg with projects := setProjectEnabled reg.projects name b } true) ∧
    (setProjectEnabled reg.projects name b).lookup name = some { e with enabled := b } ∧
    (∀ n', n' ≠ name →
      (setProjectEnabled reg.projects name b).lookup n' = reg.projects.lookup n') ∧
    (setProjectEnabled reg.projects name b).map Prod.fst = reg.projects.map Prod.fst := by
  have hfalsy : jsFalsyName (some name) = false := by
    simp [jsFalsyName, hname]
  refine ⟨?_, ?_, ?_, ?_, ?_⟩
  · simp [projectsToggle, hfalsy, parseRegistryFile, hfound]
  · simp [projectsToggle, hfalsy, parseRegistryFile, hfound]
  · exact lookup_setProjectEnabled_self reg.projects name b e hfound
  · exact fun n' hn' => lookup_setProjectEnabled_ne reg.projects name n' b hn'
  · exact keys_setProjectEnabled reg.projects name b

/-- C4 (witness): the frame theorem applied to disabling `openclaw` in the
concrete two-project registry. -/
theorem projectsToggle_success_frame_witness :
    "openclaw" ≠ "" ∧ regFixture.projects.lookup "openclaw" = some entryOpenclaw ∧
    ((projectsToggle ⟨some "openclaw", some false⟩ (some (.valid regFixture true))).1 =
        .ok ⟨"openclaw", false⟩ ∧
      (projectsToggle ⟨some "openclaw", some false⟩ (some (.valid regFixture true))).2 =
        some (.valid { regFixture with
          projects := setProjectEnabled regFixture.projects "openclaw" false } true) ∧
      (setProjectEnabled regFixture.projects "openclaw" false).lookup "openclaw" =
        some { entryOpenclaw with enabled := false } ∧
      (∀ n', n' ≠ "openclaw" →
        (setProjectEnabled regFixture.projects "openclaw" false).lookup n' =
          regFixture.projects.lookup n') ∧
      (setProjectEnabled regFixture.projects "openclaw" false).map Prod.fst =
        regFixture.projects.map Prod.fst) :=
  ⟨by decide, by decide,
    projectsToggle_success_frame regFixture true "openclaw" false entryOpenclaw
      (by decide) (by decide)⟩

/-- C6: `projects.list` responds with success and an empty projects map when
the registry file is absent, and with a structured `Unavailable` error (not
a crash) when the file exists but its content is malformed JSON. -/
theorem projectsList_absent_and_malformed :
    projectsList none = .ok (.noRegistry [] "No registry found. Run projects.scan first.") ∧
    projectsList (some .malformed) =
      .err ⟨.unavailable, "SyntaxError: Unexpected token in JSON"⟩ := by
  constructor <;> rfl

/-- C7: `runPythonScript` hands the external `execFileAsync` collaborator a
30-second (`30000` ms) wall-clock timeout and a 10MB (`10 * 1024 * 1024`
byte) `maxBuffer` — shown both as the value of the options constant and by
an echoing collaborator receiving exactly that constant — and every
subprocess rejection (non-zero exit, spawn failure, buffer overflow, or the
kill on timeout) makes `projects.usage`, `projects.git` and `projects.scan`
respond with a structured `Unavailable` error carrying the stringified
failure, never an escaping exception. -/
theorem subprocess_bounded_and_unavailable :
    (execFileOptions.timeoutMs = 30000 ∧ execFileOptions.maxBufferBytes = 10 * 1024 * 1024) ∧
    (∀ (scriptName : String) (args : List String),
      runPythonScript ExecOptions scriptName args true (fun _ opts => .ok (.valid opts)) =
        .ok execFileOptions) ∧
    (∀ (α : Type) (params : UsageParams) (e : String),
      projectsUsage α params true (fun _ _ => .error e) = .err ⟨.unavailable, e⟩) ∧
    (∀ (α : Type) (params : UsageParams) (e : String),
      projectsGit α params true (fun _ _ => .error e) = .err ⟨.unavailable, e⟩) ∧
    (∀ (α : Type) (home : String) (params : ScanParams) (e : String) (fileAfter : RegistryFile),
      projectsScan α home params true (fun _ _ => .error e) fileAfter =
        .err ⟨.unavailable, e⟩) := by
  refine ⟨⟨rfl, rfl⟩, fun scriptName args => rfl, fun α params e => rfl,
    fun α params e => rfl, fun α home params e fileAfter => rfl⟩

/-- C2: the RPC boundary performs no validation of user-supplied roots or
project names — a project name containing `..` and path separators is
appended verbatim to the `--project` argument of `projects.usage` and
`projects.git`, and roots outside any allowed base directory (`/etc`,
`../../..`) are appended verbatim to the `--root` arguments of
`projects.scan`; an echoing collaborator standing in for `execFileAsync`
receives exactly these unvalidated values. -/
theorem unsanitized_inputs_reach_invocation :
    usageArgs ⟨none, some "../../../etc"⟩ =
      ["--format", "json", "--project", "../../../etc"] ∧
    scanArgs "/home/user" ⟨some ["/etc", "../../.."]⟩ =
      ["--output", "/home/user/.openclaw/cockpit/projects.json",
        "--root", "/etc", "--root", "../../.."] ∧
    projectsUsage (List String) ⟨none, some "../../../etc"⟩ true
        (fun args _ => .ok (.valid args)) =
      .ok ["--format", "json", "--project", "../../../etc"] ∧
    projectsGit (List String) ⟨none, some "../evil"⟩ true
        (fun args _ => .ok (.valid args)) =
      .ok ["--format", "json", "--project", "../evil"] ∧
    projectsScan (List String) "/home/user" ⟨some ["/etc"]⟩ true
        (fun args _ => .ok (.valid args)) none =
      .ok (.scriptResult ["--output", "/home/user/.openclaw/cockpit/projects.json",
        "--root", "/etc"]) := by
  refine ⟨rfl, rfl, rfl, rfl, rfl⟩

/-- The boundary-matching rule, unfolded to a proposition. -/
theorem matchesCwd_iff (cwd p : String) :
    matchesCwd cwd p = true ↔ (cwd = p ∨ strStartsWith cwd (p ++ "/") = true) := by
  simp [matchesCwd, Bool.or_eq_true, beq_iff_eq]

/-- The `pickLonger` fold returns an element of the candidate list (or the
initial accumulator) whose path length dominates the accumulator and every
candidate. -/
theorem foldl_pickLonger_spec (l : List (String × ProjectEntry)) :
    ∀ (acc : Option (String × ProjectEntry)) (c : String × ProjectEntry),
      l.foldl pickLonger acc = some c →
      ((∀ a, acc = some a → a.2.path.length ≤ c.2.path.length) ∧
        (∀ x ∈ l, x.2.path.length ≤ c.2.path.length) ∧
        (acc = some c ∨ c ∈ l)) := by
  induction l with
  | nil =>
    intro acc c h
    simp only [List.foldl_nil] at h
    refine ⟨fun a ha => ?_, fun x hx => absurd hx (List.not_mem_nil x), Or.inl h⟩
    rw [h] at ha
    cases ha
    exact le_refl _
  | cons x xs ih =>
    intro acc c h
    rw [List.foldl_cons] at h
    obtain ⟨h1, h2, h3⟩ := ih (pickLonger acc x) c h
    have hstep : ∀ m, pickLonger acc x = some m →
        x.2.path.length ≤ m.2.path.length ∧
        (∀ a, acc = some a → a.2.path.length ≤ m.2.path.length) ∧
        (m = x ∨ acc = some m) := by
      intro m hm
      cases acc with
      | none =>
        simp only [pickLonger] at hm
        cases hm
        exact ⟨le_refl _, fun a ha => Option.noConfusion ha, Or.inl rfl⟩
      | some b =>
        simp only [pickLonger] at hm
        by_cases hlen : x.2.path.length > b.2.path.length
        · rw [if_pos hlen] at hm
          cases hm
          exact ⟨le_refl _, fun a ha => by cases ha; exact le_of_lt hlen, Or.inl rfl⟩
        · rw [if_neg hlen] at hm
          cases hm
          exact ⟨le_of_not_lt hlen, fun a ha => by cases ha; exact le_refl _, Or.inr rfl⟩
    have hmex : ∃ m, pickLonger acc x = some m := by
      cases acc with
      | none => exact ⟨x, rfl⟩
      | some b =>
        simp only [pickLonger]
        by_cases hlen : x.2.path.length > b.2.path.length
        · rw [if_pos hlen]; exact ⟨x, rfl⟩
        · rw [if_neg hlen]; exact ⟨b, rfl⟩
    obtain ⟨m, hm⟩ := hmex
    obtain ⟨hxm, hai, hmor⟩ := hstep m hm
    have hmc : m.2.path.length ≤ c.2.path.length := h1 m hm
    refine ⟨fun a ha => le_trans (hai a ha) hmc, ?_, ?_⟩
    · intro y hy
      rcases List.mem_cons.mp hy with hyx | hyxs
      · rw [hyx]; exact le_trans hxm hmc
      · exact h2 y hyxs
    · rcases h3 with hacc | hmem
      · rw [hm] at hacc
        cases hacc
        rcases hmor with hmx | hmacc
        · exact Or.inr (List.mem_cons.mpr (Or.inl hmx))
        · exact Or.inl hmacc
      · exact Or.inr (List.mem_cons.mpr (Or.inr hmem))

/-- C3: whenever `attribute(cwd, registry)` returns a project name (not the
`"_unmatched"` sentinel), the registry holds under that name an enabled
entry whose path boundary-matches `cwd` — `cwd` equals the path or starts
with the path followed by a path separator, so a mere string prefix without
the separator boundary is never returned — and that entry's path is longest
among all enabled boundary-matching entries. -/
theorem attributeSession_longest_boundary (cwd : String) (reg : ProjectRegistry)
    (name : String) (hres : attributeSession cwd reg = name)
    (hne : name ≠ "_unmatched") :
    ∃ e : ProjectEntry, (name, e) ∈ reg.projects ∧ e.enabled = true ∧
      (cwd = e.path ∨ strStartsWith cwd (e.path ++ "/") = true) ∧
      ∀ n' e', (n', e') ∈ reg.projects → e'.enabled = true →
        (cwd = e'.path ∨ strStartsWith cwd (e'.path ++ "/") = true) →
        e'.path.length ≤ e.path.length := by
  unfold attributeSession at hres
  by_cases hcwd : (cwd == "") = true
  · rw [if_pos hcwd] at hres
    exact absurd hres.symm hne
  · rw [if_neg hcwd] at hres
    cases hfold : (reg.projects.filter
        fun pr => pr.2.enabled && matchesCwd cwd pr.2.path).foldl pickLonger none with
    | none => rw [hfold] at hres; exact absurd hres.symm hne
    | some best =>
      rw [hfold] at hres
      obtain ⟨-, hmax, hmem⟩ := foldl_pickLonger_spec _ none best hfold
      have hbest : best ∈ reg.projects.filter
          fun pr => pr.2.enabled && matchesCwd cwd pr.2.path := by
        rcases hmem with hacc | hm
        · cases hacc
        · exact hm
      obtain ⟨hbmem, hbpred⟩ := List.mem_filter.mp hbest
      obtain ⟨hben, hbmatch⟩ := Bool.and_eq_true_iff.mp hbpred
      refine ⟨best.2, ?_, hben, (matchesCwd_iff cwd best.2.path).mp hbmatch, ?_⟩
      · rw [← hres]
        exact hbmem
      · intro n' e' hmem' hen' hmatch'
        have : (n', e') ∈ reg.projects.filter
            fun pr => pr.2.enabled && matchesCwd cwd pr.2.path := by
          refine List.mem_filter.mpr ⟨hmem', ?_⟩
          exact Bool.and_eq_true_iff.mpr ⟨hen', (matchesCwd_iff cwd e'.path).mpr hmatch'⟩
        exact hmax (n', e') this

/-- C3 (witness): in the registry with nested enabled paths `/a` and `/a/b`,
cwd `/a/b/c` is attributed to the deeper project `ab`, and the theorem's
existence and maximality conclusions hold there. -/
theorem attributeSession_longest_boundary_witness :
    attributeSession "/a/b/c" regNested = "ab" ∧ "ab" ≠ "_unmatched" ∧
    (∃ e : ProjectEntry, ("ab", e) ∈ regNested.projects ∧ e.enabled = true ∧
      ("/a/b/c" = e.path ∨ strStartsWith "/a/b/c" (e.path ++ "/") = true) ∧
      ∀ n' e', (n', e') ∈ regNested.projects → e'.enabled = true →
        ("/a/b/c" = e'.path ∨ strStartsWith "/a/b/c" (e'.path ++ "/") = true) →
        e'.path.length ≤ e.path.length) :=
  ⟨by decide, by decide,
    attributeSession_longest_boundary "/a/b/c" regNested "ab" (by decide) (by decide)⟩

/-- Accumulating a session under one key raises the map-wide token sum by
exactly that session's tokens. -/
theorem updateUsageMap_totalTokens_sum (m : List (String × UsageEntryM)) (p : String)
    (a b : Nat) (c : Rat) :
    ((updateUsageMap m p a b c).map fun pr => pr.2.totalTokens).sum =
      (m.map fun pr => pr.2.totalTokens).sum + (a + b) := by
  induction m with
  | nil => simp [updateUsageMap, addToEntry, emptyUsageEntry]
  | cons hd tl ih =>
    obtain ⟨q, en⟩ := hd
    simp only [updateUsageMap]
    by_cases hq : (q == p) = true
    · rw [if_pos hq]
      simp [addToEntry]
      omega
    · rw [if_neg hq]
      simp only [List.map_cons, List.sum_cons, ih]
      omega

/-- Accumulating a session under one key raises the map-wide cost sum by
exactly that session's cost. -/
theorem updateUsageMap_cost_sum (m : List (String × UsageEntryM)) (p : String)
    (a b : Nat) (c : Rat) :
    ((updateUsageMap m p a b c).map fun pr => pr.2.estimatedCostUSD).sum =
      (m.map fun pr => pr.2.estimatedCostUSD).sum + c := by
  induction m with
  | nil => simp [updateUsageMap, addToEntry, emptyUsageEntry]
  | cons hd tl ih =>
    obtain ⟨q, en⟩ := hd
    simp only [updateUsageMap]
    by_cases hq : (q == p) = true
    · rw [if_pos hq]
      simp [addToEntry]
      ring
    · rw [if_neg hq]
      simp only [List.map_cons, List.sum_cons, ih]
      ring

/-- The independent totals pass and the per-project pass stay in sync: if
the running totals equal the map-wide sums, they still do after folding any
further sessions through both passes. -/
theorem usage_fold_invariant (days : Option Nat) (filter : Option String) (now : Int)
    (reg : ProjectRegistry) :
    ∀ (ss : List SessionRecord) (m : List (String × UsageEntryM)) (t : UsageTotalsM),
      t.totalTokens = (m.map fun pr => pr.2.totalTokens).sum →
      t.estimatedCostUSD = (m.map fun pr => pr.2.estimatedCostUSD).sum →
      (ss.foldl (accumulateTotals days filter now reg) t).totalTokens =
        ((ss.foldl (accumulateSession days filter now reg) m).map
          fun pr => pr.2.totalTokens).sum ∧
      (ss.foldl (accumulateTotals days filter now reg) t).estimatedCostUSD =
        ((ss.foldl (accumulateSession days filter now reg) m).map
          fun pr => pr.2.estimatedCostUSD).sum := by
  intro ss
  induction ss with
  | nil => intro m t h1 h2; exact ⟨h1, h2⟩
  | cons s rest ih =>
    intro m t h1 h2
    rw [List.foldl_cons, List.foldl_cons]
    simp only [accumulateTotals, accumulateSession]
    by_cases hemp : (eventsInWindow days now s.events).isEmpty = true
    · rw [if_pos hemp, if_pos hemp]
      exact ih m t h1 h2
    · rw [if_neg hemp, if_neg hemp]
      by_cases hinc : includedInFilter filter (attributeSession s.cwd reg) = true
      · rw [if_pos hinc, if_pos hinc]
        apply ih
        · rw [updateUsageMap_totalTokens_sum, ← h1]
        · rw [updateUsageMap_cost_sum, ← h2]
      · rw [if_neg hinc, if_neg hinc]
        exact ih m t h1 h2

/-- C8: for every usage-aggregation result, the grand totals equal the sums
of the per-project values with no double counting — `totals.totalTokens` is
the sum over all reported projects of their `totalTokens`, and
`totals.estimatedCostUSD` is the sum of their `estimatedCostUSD` — even
though the totals are accumulated by an independent pass over the
sessions. -/
theorem aggregate_totals_eq_sum (days : Option Nat) (filter : Option String) (now : Int)
    (sessions : List SessionRecord) (reg : ProjectRegistry) :
    (aggregate days filter now sessions reg).totals.totalTokens =
      ((aggregate days filter now sessions reg).projects.map
        fun pr => pr.2.totalTokens).sum ∧
    (aggregate days filter now sessions reg).totals.estimatedCostUSD =
      ((aggregate days filter now sessions reg).projects.map
        fun pr => pr.2.estimatedCostUSD).sum := by
  have h := usage_fold_invariant days filter now reg sessions [] ⟨0, 0, 0⟩
    (by simp) (by simp)
  simpa [aggregate, usageProjects, usageTotals] using h

/-- Removing every binding of a key from the cache makes that key absent. -/
theorem lookup_filter_ne_self (k : String) (cache : BrainCache) :
    (cache.filter fun pr => pr.1 != k).lookup k = none := by
  induction cache with
  | nil => rfl
  | cons hd tl ih =>
    obtain ⟨q, e⟩ := hd
    cases hq : (q != k) with
    | true =>
      have hne : q ≠ k := by simpa [bne] using hq
      have hkq : (k == q) = false := by
        cases h2 : (k == q) with
        | true => exact absurd (eq_of_beq h2).symm hne
        | false => rfl
      simp only [List.filter, hq, List.lookup, hkq]
      exact ih
    | false =>
      simp only [List.filter, hq]
      exact ih

/-- C9: after `setBrainContext(k, p)` at time `now`, `getBrainContext(k)`
returns exactly `p` while fewer than 30000 ms have elapsed; once more than
30000 ms have elapsed it returns `undefined` and deletes the entry, so any
subsequent call on the resulting cache also returns `undefined`. -/
theorem brainContext_ttl (k : String) (p : BrainContextPayload) (now : Int)
    (elapsed : Nat) (cache : BrainCache) :
    (elapsed < 30000 →
      (getBrainContext k (now + elapsed) (setBrainContext k p now cache)).1 = some p) ∧
    (30000 < elapsed →
      (getBrainContext k (now + elapsed) (setBrainContext k p now cache)).1 = none ∧
      ∀ later : Int,
        (getBrainContext k later
          (getBrainContext k (now + elapsed) (setBrainContext k p now cache)).2).1 = none) := by
  have hlook : (setBrainContext k p now cache).lookup k =
      some ⟨p, now + DEFAULT_TTL_MS⟩ := by
    simp [setBrainContext, List.lookup]
  constructor
  · intro hlt
    have hcond : ¬ (now + (elapsed : Int) > now + DEFAULT_TTL_MS) := by
      simp only [DEFAULT_TTL_MS, not_lt]
      omega
    simp only [getBrainContext, hlook]
    rw [if_neg hcond]
  · intro hgt
    have hcond : now + (elapsed : Int) > now + DEFAULT_TTL_MS := by
      simp only [DEFAULT_TTL_MS]
      omega
    constructor
    · simp only [getBrainContext, hlook]
      rw [if_pos hcond]
    · intro later
      simp only [getBrainContext, hlook]
      rw [if_pos hcond]
      rw [lookup_filter_ne_self]

/-- C9 (witness): a concrete set at time 0 read back after 1000 ms (still
cached) and after 40000 ms (expired, then gone for good). -/
theorem brainContext_ttl_witness :
    (1000 < 30000 ∧
      (getBrainContext "s" ((0 : Int) + (1000 : Nat))
        (setBrainContext "s" payloadFixture 0 [])).1 = some payloadFixture) ∧
    (30000 < 40000 ∧
      (getBrainContext "s" ((0 : Int) + (40000 : Nat))
        (setBrainContext "s" payloadFixture 0 [])).1 = none ∧
      (getBrainContext "s" 99999
        (getBrainContext "s" ((0 : Int) + (40000 : Nat))
          (setBrainContext "s" payloadFixture 0 [])).2).1 = none) :=
  ⟨⟨by decide, (brainContext_ttl "s" payloadFixture 0 1000 []).1 (by decide)⟩,
    ⟨by decide, ((brainContext_ttl "s" payloadFixture 0 40000 []).2 (by decide)).1,
      ((brainContext_ttl "s" payloadFixture 0 40000 []).2 (by decide)).2 99999⟩⟩

/-- C10: `truncateContextBlock(block, maxChars)` returns `block` unchanged
when it has at most `maxChars` characters, and otherwise returns the first
`maxChars` characters followed by the 15-character suffix
`"\n[...truncated]"`, making the result exactly `maxChars + 15` characters
long. -/
theorem truncateContextBlock_spec (block : String) (maxChars : Nat) :
    (block.length ≤ maxChars → truncateContextBlock block maxChars = block) ∧
    (maxChars < block.length →
      truncateContextBlock block maxChars =
        String.mk (block.data.take maxChars) ++ "\n[...truncated]" ∧
      ("\n[...truncated]" : String).length = 15 ∧
      (truncateContextBlock block maxChars).length = maxChars + 15) := by
  constructor
  · intro h
    simp [truncateContextBlock, h]
  · intro h
    have hle : ¬ block.length ≤ maxChars := not_le.mpr h
    refine ⟨by simp [truncateContextBlock, hle], by decide, ?_⟩
    simp only [truncateContextBlock, hle, if_false]
    rw [String.length_append, String.length_mk, List.length_take]
    have hdata : block.data.length = block.length := rfl
    rw [hdata]
    have : min maxChars block.length = maxChars := Nat.min_eq_left (le_of_lt h)
    rw [this]
    have hsuf : ("\n[...truncated]" : String).length = 15 := by decide
    rw [hsuf]

/-- C10 (witness): `"hello world!"` is returned whole at budget 20 and
truncated to `"hello\n[...truncated]"` (20 characters) at budget 5. -/
theorem truncateContextBlock_spec_witness :
    ("hello world!".length ≤ 20 ∧ truncateContextBlock "hello world!" 20 = "hello world!") ∧
    (5 < "hello world!".length ∧
      truncateContextBlock "hello world!" 5 = "hello\n[...truncated]" ∧
      (truncateContextBlock "hello world!" 5).length = 5 + 15) :=
  ⟨⟨by decide, (truncateContextBlock_spec "hello world!" 20).1 (by decide)⟩,
    ⟨by decide,
      by
        have h := ((truncateContextBlock_spec "hello world!" 5).2 (by decide)).1
        rw [h]
        decide,
      ((truncateContextBlock_spec "hello world!" 5).2 (by decide)).2.2⟩⟩

end OpenClaw
